import Mathlib

/-!
Verification of the STEMwerk audio-separator worker
(src/scripts/reaper/audio_separator_process.py) against its
natural-language specification.

The Python source is shallowly embedded below.  Pure computations become
Lean functions over Nat / Int / Rat and String; Python exceptions become
Except / Option values; the process environment (which libraries import
successfully, what the CUDA / MPS / DirectML probes report) becomes an
explicit record threaded through the functions that consult it.

The only parts not reproduced bit-for-bit are the floating-point
exponentials 0.5 ** (elapsed / half_life) inside the two progress
estimator threads: those are modelled by their exact mathematical value,
passed in as a rational "progress ratio" in [0, 1) (the range of
1 - 0.5 ** x for x >= 0), evaluated exactly at dyadic points.
-/

namespace STEMwerk

/-! ## String helpers (substring / affix tests used by the embedding) -/

/-- Does the first character list occur at the head of the second?
(Helper for the substring test used by Python's "in" operator.) -/
def leadMatch : List Char → List Char → Bool
  | [], _ => true
  | _ :: _, [] => false
  | p :: ps, c :: cs => p == c && leadMatch ps cs

/-- Does the first character list occur contiguously anywhere in the second?
Models Python's substring operator "pat in s". -/
def hasSub (pat : List Char) : List Char → Bool
  | [] => leadMatch pat []
  | c :: cs => leadMatch pat (c :: cs) || hasSub pat cs

/-- Models Python str.startswith. -/
def strStarts (pat s : String) : Bool := leadMatch pat.toList s.toList

/-- Models Python str.endswith. -/
def strEnds (pat s : String) : Bool := leadMatch pat.toList.reverse s.toList.reverse

/-- Characters of a name after the last '/', i.e. the final path component
(model of pathlib's final-component extraction for the paths we build). -/
def lastComponent (s : String) : String :=
  ⟨(s.toList.reverse.takeWhile (fun c => c ≠ '/')).reverse⟩

/-- Index of the last '.' in a character list, if any. -/
def lastDotIdx (cs : List Char) : Option Nat :=
  match cs.reverse.findIdx? (fun c => c == '.') with
  | some k => some (cs.length - 1 - k)
  | none => none

/-- Model of pathlib.PurePath.stem on a single path component: the name with
its final extension removed.  The extension is the part from the last '.',
provided that dot is neither the first nor the last character. -/
def pathStem (s : String) : String :=
  let cs := s.toList
  match lastDotIdx cs with
  | some i => if 0 < i ∧ i < cs.length - 1 then ⟨cs.take i⟩ else s
  | none => s

/-- Model of os.path.join for a directory with no trailing separator. -/
def joinPath (dir name : String) : String := dir ++ "/" ++ name

/-- Model of Python str.lower (ASCII case folding, as in all the names
the source compares). -/
def lowerStr (s : String) : String := ⟨s.toList.map Char.toLower⟩

/-- Model of Python str.strip: whitespace removed from both ends. -/
def stripStr (s : String) : String :=
  ⟨((s.toList.dropWhile Char.isWhitespace).reverse.dropWhile Char.isWhitespace).reverse⟩

/-- Model of os.path.isabs. -/
def isAbsPath (s : String) : Bool := strStarts "/" s

/-! ## Progress formulas

From audio_separator_process.py, loading_progress_thread (lines 392-408)
and progress_thread (lines 538-570).  Python's int() truncates toward
zero; every argument below is nonnegative (the ratio argument stands for
1 - 0.5 ** x with x >= 0, so it lies in [0, 1)), hence int() agrees with
the floor used here. -/

/-- Loading-phase percent: percent = min(10, int(1 + progress_ratio * 9))
where progress_ratio = 1 - 0.5 ** (elapsed / 15). -/
def loadingPercent (r : ℚ) : ℤ := min 10 ⌊1 + r * 9⌋

/-- Processing-phase percent for estimated_time > 0:
percent = int(12 + progress_ratio * 76); percent = min(88, max(last_percent, percent))
where progress_ratio = 1 - 0.5 ** (elapsed / estimated_time). -/
def processingPercent (last : ℤ) (r : ℚ) : ℤ := min 88 (max last ⌊12 + r * 76⌋)

/-- Successive processing-thread percents: each iteration updates
last_percent to the percent just computed (lines 550-551). -/
def procScan (last : ℤ) : List ℚ → List ℤ
  | [] => []
  | r :: rs => processingPercent last r :: procScan (processingPercent last r) rs

/-- Exact value of the progress ratio 1 - 0.5 ** (t / T) when the elapsed
time t is n half-lives, i.e. t = n * T. -/
def halfDecayRatio (n : ℕ) : ℚ := 1 - (1 / 2) ^ n

/-- Audio duration used for the estimate (lines 516-523): soundfile's
duration on success, 180 seconds when the library is absent or the query
raises (modelled by none). -/
def durationSeconds (sfDuration : Option ℚ) : ℚ := sfDuration.getD 180

/-- Estimated total processing time (lines 526-531):
4.0 x duration on CPU, 0.5 x duration on any other device. -/
def estimated_time (device : String) (duration : ℚ) : ℚ :=
  if device = "cpu" then duration * 4 else duration * (1 / 2)

/-! ## Device catalog and selection

Embedding of get_available_devices (lines 120-276), the nested helpers
_rocm_arches_from_rocminfo / _device_rocm_arch / _rocblas_has_tensile_for_arch
(lines 141-213), and select_device (lines 278-325).

The process environment is explicit.  A Python exception that the source
catches unconditionally is folded into an Option (none = the call raised
or the datum is absent); the one call whose exception can escape
get_available_devices - torch.cuda.is_available(), guarded only by the
"except ImportError" at line 273 - is modelled as Option Bool with none
standing for a non-ImportError exception (a RuntimeError, say: an
already-imported torch does not raise ImportError from that query). -/

/-- Python exception classes distinguished by the source's handlers. -/
inductive PyExc
  | importError
  | runtimeError
  deriving DecidableEq, Repr

/-- One entry of the devices list: {"id": ..., "name": ..., "type": ...}. -/
structure Device where
  id : String
  name : String
  ty : String
  deriving DecidableEq, Repr

/-- One entry of the module-global _DEVICE_SKIPS list. -/
structure SkippedDevice where
  id : String
  name : String
  reason : String
  deriving DecidableEq, Repr

/-- Observable state of the torch-related runtime, as seen through the
probing calls the source makes.  gcnArch entries are none when the
per-device property query raises or lacks an arch field; rocblasDir is
none when /opt/rocm/lib/rocblas/library does not exist or probing it
raises (both handled identically at lines 207, 212-213); mpsAvailable is
none when the MPS probe raises (caught at lines 241-242 and 300-301);
dmlCount is none when importing torch_directml or counting its devices
fails (caught at lines 263-266). -/
structure TorchEnv where
  isLinux : Bool
  hipVersion : Option String
  cudaAvailable : Option Bool
  cudaCount : Nat
  cudaNames : List String
  rocmArches : List String
  gcnArch : List (Option String)
  rocblasDir : Option (List String)
  mpsAvailable : Option Bool
  dmlCount : Option Nat
  deriving DecidableEq, Repr

/-- The process environment: torch is none when "import torch" raises
ImportError (caught at line 273 in enumeration, unguarded at line 280 in
select_device). -/
structure Env where
  torch : Option TorchEnv
  deriving DecidableEq, Repr

/-- Lines 125-128: the always-present stable choices. -/
def baseDevices : List Device :=
  [⟨"auto", "Auto", "auto"⟩, ⟨"cpu", "CPU", "cpu"⟩]

/-- _device_rocm_arch (lines 184-198): prefer the rocminfo-derived arch
list by device index, fall back to the torch device-property arch, and
swallow every exception into none. -/
def deviceRocmArch (t : TorchEnv) (idx : Nat) : Option String :=
  match t.rocmArches.get? idx with
  | some a => some a
  | none => (t.gcnArch.getD idx none)

/-- Python str.strip of the part of the arch before the first ':'
(line 203: arch.split(":", 1)[0].strip()). -/
def normArch (a : String) : String :=
  stripStr ⟨a.toList.takeWhile (fun c => c ≠ ':')⟩

/-- Does a file name match the glob "*<arch>*.dat" (line 210)? -/
def tensileMatch (arch file : String) : Bool :=
  strEnds ".dat" file && hasSub arch.toList (file.toList.dropLast.dropLast.dropLast.dropLast)

/-- _rocblas_has_tensile_for_arch (lines 200-213).  Python's "not arch"
is also true for the empty string. -/
def rocblasHasTensileForArch (dir : Option (List String)) (arch : Option String) : Bool :=
  match arch with
  | none => true
  | some a =>
    if a = "" then true
    else
      let a0 := normArch a
      if ¬ strStarts "gfx" a0 then true
      else
        match dir with
        | none => true
        | some files => files.any (tensileMatch a0)

/-- Skip reason recorded at lines 221-225 (Python str-formats a missing
arch as "None"). -/
def skipReason (arch : Option String) : String :=
  "ROCm rocBLAS Tensile library missing for arch " ++ arch.getD "None" ++
    " (see /opt/rocm/lib/rocblas/library)."

/-- The CUDA/ROCm enumeration loop body (lines 215-231) over a list of
device indices. -/
def cudaDevicesAux (t : TorchEnv) (isRocm : Bool) : List Nat → List Device × List SkippedDevice
  | [] => ([], [])
  | i :: is =>
    let rest := cudaDevicesAux t isRocm is
    let nm := t.cudaNames.getD i ""
    if isRocm && !(rocblasHasTensileForArch t.rocblasDir (deviceRocmArch t i)) then
      (rest.1, ⟨"cuda:" ++ toString i, nm, skipReason (deviceRocmArch t i)⟩ :: rest.2)
    else
      (⟨"cuda:" ++ toString i, nm, "cuda"⟩ :: rest.1, rest.2)

/-- CUDA/ROCm devices and skips, in driver order (lines 215-231);
is_rocm per lines 132-138. -/
def cudaDevices (t : TorchEnv) : List Device × List SkippedDevice :=
  cudaDevicesAux t (t.isLinux && t.hipVersion.isSome) (List.range t.cudaCount)

/-- Apple MPS probe (lines 234-242): one device when the guarded query
reports available; absent when it reports false or raises. -/
def mpsDevices (t : TorchEnv) : List Device :=
  if t.mpsAvailable = some true then [⟨"mps", "Apple MPS", "mps"⟩] else []

/-- DirectML probe (lines 245-266): ids carry an index only when more
than one device is present. -/
def dmlDevices (t : TorchEnv) : List Device :=
  match t.dmlCount with
  | none => []
  | some n =>
    (List.range n).map (fun i =>
      ⟨if n > 1 then "directml:" ++ toString i else "directml",
       "DirectML GPU " ++ toString i, "directml"⟩)

/-- get_available_devices (lines 120-276), returning the devices list and
the _DEVICE_SKIPS it populates.  A torch ImportError is caught at line
273 and yields the base devices; a non-ImportError exception from
torch.cuda.is_available() (line 215) escapes, because only ImportError is
handled. -/
def getAvailableDevices (env : Env) : Except PyExc (List Device × List SkippedDevice) :=
  match env.torch with
  | none => .ok (baseDevices, [])
  | some t =>
    match t.cudaAvailable with
    | none => .error .runtimeError
    | some ca =>
      let cuda := if ca then cudaDevices t else ([], [])
      .ok (baseDevices ++ cuda.1 ++ mpsDevices t ++ dmlDevices t, cuda.2)

/-- Line 289: dev["type"] in ["cuda", "directml", "mps"]. -/
def isGpuClass (d : Device) : Bool :=
  d.ty == "cuda" || d.ty == "directml" || d.ty == "mps"

/-- select_device (lines 278-325).  The unguarded "import torch" at line
280 raises when torch is absent; an exception escaping
get_available_devices (line 282) also propagates. -/
def selectDevice (env : Env) (req : String) : Except PyExc (String × String) :=
  match env.torch with
  | none => .error .importError
  | some t =>
    match getAvailableDevices env with
    | .error e => .error e
    | .ok (available, _skips) =>
      if req = "auto" then
        match available.find? isGpuClass with
        | some d => .ok (d.id, d.name)
        | none => .ok ("cpu", "CPU")
      else if req = "cpu" then .ok ("cpu", "CPU")
      else if req = "mps" then
        if t.mpsAvailable = some true then .ok ("mps", "Apple MPS")
        else .ok ("cpu", "CPU")
      else
        match available.find? (fun d => d.id == req) with
        | some d => .ok (d.id, d.name)
        | none =>
          if strStarts "cuda:" req then
            match available.find? (fun d => d.ty == "cuda" && strStarts "cuda:" d.id) with
            | some d => .ok (d.id, d.name)
            | none => .ok ("cpu", "CPU")
          else .ok ("cpu", "CPU")

/-! ## The run skeleton of main (lines 736-813)

What matters for the claims: the order of the actions main performs on
the separation path, the exit statuses of its failure branches, the done
marker written into a configured sink directory, and the estimator
stop/join performed by the try/finally around the blocking separation
call (lines 576-580). -/

/-- Observable outcome of one worker run. -/
structure RunOutcome where
  exitCode : Nat
  doneMarker : Option String
  procStopSignalled : Bool
  procJoinTimeoutSec : Option ℚ
  deriving DecidableEq, Repr

/-- The tail of main on the separation path:
  - missing input file: ERROR print, sys.exit(1) (lines 795-797);
  - missing dependency: the "from audio_separator.separator import
    Separator" at line 340 raises ImportError before any estimator
    starts, caught at line 806: ERROR marker if a sink directory was
    configured, sys.exit(1) (lines 806-813);
  - blocking separation call (line 577) returns or raises: the finally
    block (lines 578-580) sets processing_done and joins the estimator
    thread with timeout 1.0 either way; on success main prints the JSON
    result and writes DONE (exit status 0), on failure it writes ERROR
    and calls sys.exit(1). -/
def mainRun (inputExists sinkConfigured depsPresent : Bool)
    (sep : Except PyExc (List String)) : RunOutcome :=
  if ¬ inputExists then
    { exitCode := 1, doneMarker := none, procStopSignalled := false, procJoinTimeoutSec := none }
  else if ¬ depsPresent then
    { exitCode := 1, doneMarker := if sinkConfigured then some "ERROR" else none,
      procStopSignalled := false, procJoinTimeoutSec := none }
  else
    match sep with
    | .ok _ =>
      { exitCode := 0, doneMarker := if sinkConfigured then some "DONE" else none,
        procStopSignalled := true, procJoinTimeoutSec := some 1 }
    | .error _ =>
      { exitCode := 1, doneMarker := if sinkConfigured then some "ERROR" else none,
        procStopSignalled := true, procJoinTimeoutSec := some 1 }

/-- Also reachable failure statuses outside the separation path, for
comparison with the job-failure status:
"--check" with a missing installation exits 1 (line 773),
and missing positional arguments exit 1 (line 793). -/
def checkFailureExitCode : Nat := 1

/-- Actions main performs, in order, on the separation path. -/
inductive MainAct
  | setupSinks      -- _setup_reaper_io, line 757
  | maskGpu         -- set CUDA/HIP/ROCR_VISIBLE_DEVICES = "", lines 762-764
  | importBackend   -- import of the separation engine and torch, lines 340, 361
  | queryCatalog    -- get_available_devices via select_device, line 282
  | runSeparate     -- the blocking separation call, line 577
  deriving DecidableEq, Repr

/-- Order of main's actions for a run that reaches separate_stems
(lines 753-800): sinks first, then - only when the requested device
string lowercases to "cpu" (line 762) - the GPU-visibility masking,
then separate_stems, whose first steps import the backend libraries and
query the device catalog. -/
def separationTrace (device : String) : List MainAct :=
  [MainAct.setupSinks] ++
    (if lowerStr device = "cpu" then [MainAct.maskGpu] else []) ++
    [MainAct.importBackend, MainAct.queryCatalog, MainAct.runSeparate]

/-- Effect of the masking at lines 762-764 on what torch subsequently
reports.  Modelled from documented semantics of the visibility
variables: with CUDA_VISIBLE_DEVICES / HIP_VISIBLE_DEVICES /
ROCR_VISIBLE_DEVICES set to the empty string the CUDA/ROCm backend
reports no devices, while the MPS and DirectML backends do not consult
these variables and are unaffected. -/
def applyCpuMask (env : Env) : Env :=
  { torch := env.torch.map (fun t => { t with cudaAvailable := some false, cudaCount := 0 }) }

/-! ## Progress event traces (emit_progress, lines 102-118, and the
emitting code in separate_stems)

Every sink receives the same PROGRESS:<percent>:<stage> lines, so a run
is abstracted to the sequence of (emitting thread, int percent) pairs
reaching a sink.  The foreground emits the constants 0, 1, 3, 11, 92,
100 (lines 355, 413, 505, 513, 582, 616); the loading estimator thread
emits loadingPercent values while it runs (started line 411, signalled
to stop at line 510, i.e. before the foreground emits 11); the
processing estimator thread emits procScan values between the
foreground's 11 and 92 (started line 573, stopped and joined in the
finally at lines 578-580) - while it runs, the foreground is blocked
inside the separation call.  The model covers runs in which both joins
complete within their timeout (no emission is in flight after the stop
signal). -/

/-- Which piece of code performed an emit_progress call. -/
inductive Emitter
  | foreground
  | loadThread
  | procThread
  deriving DecidableEq, Repr

/-- One progress event: the emitting thread and the integer percent. -/
abbrev ProgressEvent := Emitter × ℤ

/-- Tag a list of percents with their emitter. -/
def tagged (e : Emitter) (ps : List ℤ) : List ProgressEvent := ps.map (fun p => (e, p))

/-- The two fixed foreground emissions during the loading phase
(lines 413 and 505), which race with the loading estimator thread. -/
def fgLoadEvents : List ProgressEvent := [(Emitter.foreground, 1), (Emitter.foreground, 3)]

/-- zs is an interleaving of xs and ys (order within each preserved). -/
inductive Interleave : List ProgressEvent → List ProgressEvent → List ProgressEvent → Prop
  | nil : Interleave [] [] []
  | left {x xs ys zs} : Interleave xs ys zs → Interleave (x :: xs) ys (x :: zs)
  | right {y xs ys zs} : Interleave xs ys zs → Interleave xs (y :: ys) (y :: zs)

/-- Possible loading-thread emission sequences: loadingPercent sampled at
a nondecreasing sequence of progress ratios, each the value of
1 - 0.5 ** (elapsed / 15) for some elapsed >= 0, hence in [0, 1). -/
def LoadEmits (L : List ℤ) : Prop :=
  ∃ rs : List ℚ, List.Chain' (· ≤ ·) rs ∧ (∀ r ∈ rs, 0 ≤ r ∧ r < 1) ∧
    L = rs.map loadingPercent

/-- Possible processing-thread emission sequences (estimated_time > 0
branch): the clamped scan of processingPercent starting from
last_percent = 11 (line 540), over nondecreasing ratios in [0, 1). -/
def ProcEmits (P : List ℤ) : Prop :=
  ∃ rs : List ℚ, List.Chain' (· ≤ ·) rs ∧ (∀ r ∈ rs, 0 ≤ r ∧ r < 1) ∧
    P = procScan 11 rs

/-- The event sequences a successful run can deliver to a sink: the
initial 0, then any interleaving of the foreground's 1 and 3 with the
loading-thread emissions, then 11, the processing-thread emissions, 92
and 100. -/
def ValidTrace (tr : List ProgressEvent) : Prop :=
  ∃ L P w, LoadEmits L ∧ ProcEmits P ∧
    Interleave fgLoadEvents (tagged Emitter.loadThread L) w ∧
    tr = (Emitter.foreground, 0) :: w ++ (Emitter.foreground, 11) ::
      (tagged Emitter.procThread P ++ [(Emitter.foreground, 92), (Emitter.foreground, 100)])

/-! ## Output normalizer (lines 586-614)

The filesystem is modelled as the list of existing file paths; moving and
removing files update it, and shutil.move with a missing source raises
FileNotFoundError (modelled as Except.error ()).  Every path the loop
builds lives in output_dir. -/

/-- The ordered stem synonym table (lines 588-595); Python dicts iterate
in insertion order. -/
def stem_mapping : List (String × List String) :=
  [("vocals", ["vocals", "vocal", "Vocals"]),
   ("drums", ["drums", "drum", "Drums"]),
   ("bass", ["bass", "Bass"]),
   ("other", ["other", "Other", "no_vocals", "instrumental", "Instrumental"]),
   ("guitar", ["guitar", "Guitar"]),
   ("piano", ["piano", "Piano", "keys", "Keys"])]

/-- The inner pattern loop (lines 604-605) up to its break: does any
synonym, lowercased, occur in the lowercased filename? -/
def patternHits (pats : List String) (filename : String) : Bool :=
  pats.any (fun p => hasSub (lowerStr p).toList filename.toList)

/-- result[stem_name] = new_path on a Python dict modelled as an
insertion-ordered association list. -/
def upsert : List (String × String) → String → String → List (String × String)
  | [], k, v => [(k, v)]
  | (k0, v0) :: rest, k, v =>
    if k0 = k then (k, v) :: rest else (k0, v0) :: upsert rest k v

/-- Normalizer state: the existing files and the result mapping. -/
structure NormSt where
  fs : List String
  result : List (String × String)
  deriving DecidableEq, Repr

/-- The outer stem loop (lines 603-614) for one raw output file.  The
break at line 614 only leaves the inner pattern loop, so the iteration
continues with the next stem even after a match.  On a match: new_path =
output_dir/<stem>.wav (line 606, extension fixed to .wav); if the raw
path differs from new_path, any existing new_path is removed (608-609)
and the raw path is moved onto it (610-611) - a move whose source no
longer exists raises. -/
def processFileStems (dir filename full : String) :
    List (String × List String) → NormSt → Except Unit NormSt
  | [], st => .ok st
  | (stem, pats) :: rest, st =>
    if patternHits pats filename then
      let newPath := joinPath dir (stem ++ ".wav")
      if full = newPath then
        processFileStems dir filename full rest ⟨st.fs, upsert st.result stem newPath⟩
      else
        let fs1 := st.fs.erase newPath
        if full ∈ fs1 then
          processFileStems dir filename full rest
            ⟨fs1.erase full ++ [newPath], upsert st.result stem newPath⟩
        else .error ()
    else processFileStems dir filename full rest st

/-- The full path of a raw output entry (lines 598-599: joined onto
output_dir unless already absolute). -/
def fullRawPath (dir raw : String) : String :=
  if isAbsPath raw then raw else joinPath dir raw

/-- Line 601: filename = Path(output_file).stem.lower(). -/
def rawFileKey (dir raw : String) : String :=
  lowerStr (pathStem (lastComponent (fullRawPath dir raw)))

/-- One iteration of the loop over output_files (lines 597-614). -/
def processRawFile (dir : String) (st : NormSt) (raw : String) : Except Unit NormSt :=
  processFileStems dir (rawFileKey dir raw) (fullRawPath dir raw) stem_mapping st

/-- The whole renaming pass (lines 587-614) over the raw output list,
starting from result = {} and the given filesystem contents. -/
def normalizeOutputs (dir : String) (rawFiles : List String) (fs0 : List String) :
    Except Unit NormSt :=
  rawFiles.foldlM (processRawFile dir) ⟨fs0, []⟩

/-! ## Sample environments and traces used as concrete inputs -/

/-- A torch runtime whose CUDA availability query raises a
non-ImportError exception, while MPS reports available and one DirectML
device is present. -/
def tCudaRaise : TorchEnv :=
  { isLinux := false, hipVersion := none, cudaAvailable := none,
    cudaCount := 0, cudaNames := [], rocmArches := [], gcnArch := [],
    rocblasDir := none, mpsAvailable := some true, dmlCount := some 1 }

def envCudaRaise : Env := ⟨some tCudaRaise⟩

/-- A torch runtime with one healthy CUDA device and one DirectML
device. -/
def tDml : TorchEnv :=
  { isLinux := false, hipVersion := none, cudaAvailable := some true,
    cudaCount := 1, cudaNames := ["RX"], rocmArches := [], gcnArch := [],
    rocblasDir := none, mpsAvailable := some false, dmlCount := some 1 }

def envDml : Env := ⟨some tDml⟩

/-- A torch runtime whose catalog is [auto, cpu, cuda:0]. -/
def tCuda0 : TorchEnv :=
  { isLinux := false, hipVersion := none, cudaAvailable := some true,
    cudaCount := 1, cudaNames := ["RX"], rocmArches := [], gcnArch := [],
    rocblasDir := none, mpsAvailable := some false, dmlCount := none }

def envCuda0 : Env := ⟨some tCuda0⟩

/-- A placeholder torch runtime (used only as a dummy argument). -/
def tBlank : TorchEnv :=
  { isLinux := false, hipVersion := none, cudaAvailable := none,
    cudaCount := 0, cudaNames := [], rocmArches := [], gcnArch := [],
    rocblasDir := none, mpsAvailable := none, dmlCount := none }

/-- A progress-event interleaving in which the loading estimator thread,
15 seconds into a slow engine initialization, emits percent 5 (ratio
1 - 0.5 ** (15/15) = 1/2) before the foreground reaches its fixed
emit_progress(3, ...) at line 505. -/
def ceTrace : List ProgressEvent :=
  [(Emitter.foreground, 0), (Emitter.foreground, 1),
   (Emitter.loadThread, 1), (Emitter.loadThread, 5), (Emitter.foreground, 3),
   (Emitter.foreground, 11), (Emitter.procThread, 12),
   (Emitter.foreground, 92), (Emitter.foreground, 100)]

/-- A run in which both estimator threads are never scheduled between
foreground emissions. -/
def fgOnlyTrace : List ProgressEvent :=
  [(Emitter.foreground, 0), (Emitter.foreground, 1), (Emitter.foreground, 3),
   (Emitter.foreground, 11), (Emitter.foreground, 92), (Emitter.foreground, 100)]

/-! # Theorems -/

/-- Claim C4: during the processing phase the percent at elapsed time t
is min(88, max(last_percent, int(12 + 76 * (1 - 0.5 ^ (t / T_est))))),
with T_est = 4.0 x duration on CPU and 0.5 x duration on any other
device; for a 180-second input on CPU, T_est = 720 seconds, and at
elapsed 720 seconds (one half-life) the computed percent is 50. -/
theorem claimC4_processing_estimator :
    (∀ (last : ℤ) (r : ℚ), processingPercent last r = min 88 (max last ⌊(12 : ℚ) + 76 * r⌋))
    ∧ (∀ dur : ℚ, estimated_time "cpu" dur = 4 * dur)
    ∧ (∀ d : String, d ≠ "cpu" → ∀ dur : ℚ, estimated_time d dur = dur / 2)
    ∧ estimated_time "cpu" 180 = 720
    ∧ (∀ last : ℤ, last ≤ 50 → processingPercent last (halfDecayRatio 1) = 50) := by
  refine ⟨?_, ?_, ?_, ?_, ?_⟩
  · intro last r
    rw [processingPercent, mul_comm]
  · intro dur
    rw [estimated_time, if_pos rfl, mul_comm]
  · intro d hd dur
    rw [estimated_time, if_neg hd]
    ring
  · rw [estimated_time, if_pos rfl]
    norm_num
  · intro last hlast
    have hr : (12 : ℚ) + halfDecayRatio 1 * 76 = 50 := by
      norm_num [halfDecayRatio]
    rw [processingPercent, hr]
    have hfl : ⌊(50 : ℚ)⌋ = 50 := by norm_num
    rw [hfl, max_eq_right hlast]
    norm_num

/-- Witness for claim C4 at the spec's scenario: a non-CPU device gets
half the duration, and at one half-life with last_percent = 11 the
percent is exactly 50. -/
theorem claimC4_processing_estimator_witness :
    estimated_time "mps" 180 = 90 ∧ processingPercent 11 (halfDecayRatio 1) = 50 := by
  constructor
  · have h := claimC4_processing_estimator.2.2.1 "mps" (by decide) 180
    rw [h]; norm_num
  · exact claimC4_processing_estimator.2.2.2.2 11 (by decide)

/-- Claim C10: when reading the input duration fails, the run continues
with a default duration of 180 seconds, giving an estimated total time
of 720 seconds on CPU and 90 seconds on any other device. -/
theorem claimC10_duration_default :
    durationSeconds none = 180
    ∧ estimated_time "cpu" (durationSeconds none) = 720
    ∧ (∀ d : String, d ≠ "cpu" → estimated_time d (durationSeconds none) = 90) := by
  refine ⟨rfl, ?_, ?_⟩
  · rw [estimated_time, if_pos rfl]
    norm_num [durationSeconds]
  · intro d hd
    rw [estimated_time, if_neg hd]
    norm_num [durationSeconds]

/-- Witness for claim C10 on a concrete accelerated device. -/
theorem claimC10_duration_default_witness :
    estimated_time "cuda:0" (durationSeconds none) = 90 :=
  claimC10_duration_default.2.2 "cuda:0" (by decide)

/-- Claim C8: the kernel-support check is fail-open - it returns true
whenever the architecture is undetermined (including when the lookup
raised, which _device_rocm_arch turns into an absent architecture) or
the kernel-library directory cannot be located, and returns false only
when the directory exists and holds no artifact matching the
architecture string. -/
theorem claimC8_fail_open :
    ∀ (dir : Option (List String)) (arch : Option String),
      (arch = none → rocblasHasTensileForArch dir arch = true)
      ∧ (dir = none → rocblasHasTensileForArch dir arch = true)
      ∧ (rocblasHasTensileForArch dir arch = false →
          ∃ files a, dir = some files ∧ arch = some a ∧
            files.any (tensileMatch (normArch a)) = false) := by
  intro dir arch
  refine ⟨?_, ?_, ?_⟩
  · rintro rfl; rfl
  · rintro rfl
    match arch with
    | none => rfl
    | some a =>
      simp only [rocblasHasTensileForArch]
      split <;> [rfl; split <;> rfl]
  · intro hfalse
    match arch with
    | none => exact absurd hfalse (by simp [rocblasHasTensileForArch])
    | some a =>
      simp only [rocblasHasTensileForArch] at hfalse
      split at hfalse
      · exact absurd hfalse (by simp)
      · split at hfalse
        · exact absurd hfalse (by simp)
        · match dir, hfalse with
          | some files, hfalse => exact ⟨files, a, rfl, rfl, hfalse⟩

/-- Witness for claim C8: a missing directory is fail-open, and an
explicit mismatch (empty directory, known arch) is reported with the
evidence the fail-closed branch requires. -/
theorem claimC8_fail_open_witness :
    rocblasHasTensileForArch none (some "gfx1103") = true
    ∧ ∃ files a, (some ([] : List String)) = some files ∧
        (some "gfx1103") = some a ∧ files.any (tensileMatch (normArch a)) = false := by
  constructor
  · exact (claimC8_fail_open none (some "gfx1103")).2.1 rfl
  · exact (claimC8_fail_open (some []) (some "gfx1103")).2.2 (by decide)

/-- Claim C7: select_device("auto") returns the first device whose
backend type is cuda, directml or mps in catalog enumeration order, and
the CPU device when the available set holds no such device. -/
theorem claimC7_auto_first_gpu :
    ∀ (env : Env) (t : TorchEnv) (avail : List Device) (skips : List SkippedDevice),
      env.torch = some t →
      getAvailableDevices env = .ok (avail, skips) →
      selectDevice env "auto" =
        .ok (match avail.find? isGpuClass with
             | some d => (d.id, d.name)
             | none => ("cpu", "CPU")) := by
  intro env t avail skips htorch henum
  cases env with
  | mk tor =>
    simp only at htorch
    subst htorch
    simp only [selectDevice, henum, if_pos rfl]
    cases avail.find? isGpuClass <;> rfl

/-- Witness for claim C7 at the spec's scenario: available devices
[auto, cpu, cuda:0] resolve "auto" to cuda:0. -/
theorem claimC7_auto_first_gpu_witness :
    getAvailableDevices envCuda0 =
      .ok ([⟨"auto", "Auto", "auto"⟩, ⟨"cpu", "CPU", "cpu"⟩, ⟨"cuda:0", "RX", "cuda"⟩], [])
    ∧ selectDevice envCuda0 "auto" = .ok ("cuda:0", "RX") := by
  constructor
  · rfl
  · have h := claimC7_auto_first_gpu envCuda0 tCuda0
      [⟨"auto", "Auto", "auto"⟩, ⟨"cpu", "CPU", "cpu"⟩, ⟨"cuda:0", "RX", "cuda"⟩] []
      rfl rfl
    simpa using h

/-- Claim C2 as stated is false: select_device executes an unguarded
"import torch" (line 280) before anything else, so with torch absent
(a catalog state whose available set is exactly [auto, cpu]) it raises
ImportError for every request, including "cpu"; and when the catalog
enumeration itself raises (line 282), that exception propagates too. -/
theorem claimC2_counterexample :
    selectDevice ⟨none⟩ "cpu" = .error PyExc.importError
    ∧ getAvailableDevices ⟨none⟩ = .ok (baseDevices, [])
    ∧ selectDevice envCudaRaise "auto" = .error PyExc.runtimeError := ⟨rfl, rfl, rfl⟩

/-- Claim C2 amended: whenever the torch import succeeds and the catalog
enumeration returns normally, select_device returns normally for every
request string, and the returned id is a member of the catalog's
available set for that call or the CPU sentinel. -/
theorem claimC2_never_raises :
    ∀ (env : Env) (t : TorchEnv) (avail : List Device) (skips : List SkippedDevice)
      (req : String),
      env.torch = some t →
      getAvailableDevices env = .ok (avail, skips) →
      ∃ id nm, selectDevice env req = .ok (id, nm) ∧
        (id ∈ avail.map Device.id ∨ id = "cpu") := by
  intro env t avail skips req htorch henum
  cases env with
  | mk tor =>
    simp only at htorch
    subst htorch
    have hmem : t.mpsAvailable = some true → (⟨"mps", "Apple MPS", "mps"⟩ : Device) ∈ avail := by
      intro hm
      simp only [getAvailableDevices] at henum
      match hca : t.cudaAvailable with
      | none => rw [hca] at henum; exact absurd henum (by simp)
      | some ca =>
        rw [hca] at henum
        simp only [Except.ok.injEq, Prod.mk.injEq] at henum
        rw [← henum.1]
        simp [mpsDevices, hm]
    simp only [selectDevice, henum]
    by_cases hauto : req = "auto"
    · rw [if_pos hauto]
      match hfind : avail.find? isGpuClass with
      | some d =>
        exact ⟨d.id, d.name, rfl, Or.inl (List.mem_map_of_mem _ (List.mem_of_find?_eq_some hfind))⟩
      | none =>
        exact ⟨"cpu", "CPU", rfl, Or.inr rfl⟩
    · rw [if_neg hauto]
      by_cases hcpu : req = "cpu"
      · rw [if_pos hcpu]; exact ⟨"cpu", "CPU", rfl, Or.inr rfl⟩
      · rw [if_neg hcpu]
        by_cases hmps : req = "mps"
        · rw [if_pos hmps]
          by_cases hm : t.mpsAvailable = some true
          · rw [if_pos hm]
            exact ⟨"mps", "Apple MPS", rfl, Or.inl (List.mem_map_of_mem _ (hmem hm))⟩
          · rw [if_neg hm]; exact ⟨"cpu", "CPU", rfl, Or.inr rfl⟩
        · rw [if_neg hmps]
          split
          next d hfind =>
            exact ⟨d.id, d.name, rfl, Or.inl (List.mem_map_of_mem _ (List.mem_of_find?_eq_some hfind))⟩
          next hfind =>
            split
            next hcu =>
              split
              next d hfind2 =>
                exact ⟨d.id, d.name, rfl,
                  Or.inl (List.mem_map_of_mem _ (List.mem_of_find?_eq_some hfind2))⟩
              next hfind2 =>
                exact ⟨"cpu", "CPU", rfl, Or.inr rfl⟩
            next hcu =>
              exact ⟨"cpu", "CPU", rfl, Or.inr rfl⟩

/-- Witness for the amended claim C2: a nonsense request on a healthy
host still resolves, to the CPU sentinel. -/
theorem claimC2_never_raises_witness :
    ∃ id nm, selectDevice envCuda0 "warp9" = .ok (id, nm) ∧
      (id ∈ ([⟨"auto", "Auto", "auto"⟩, ⟨"cpu", "CPU", "cpu"⟩,
              ⟨"cuda:0", "RX", "cuda"⟩] : List Device).map Device.id ∨ id = "cpu") :=
  claimC2_never_raises envCuda0 tCuda0
    [⟨"auto", "Auto", "auto"⟩, ⟨"cpu", "CPU", "cpu"⟩, ⟨"cuda:0", "RX", "cuda"⟩] []
    "warp9" rfl rfl

/-- Claim C6 as stated is false: only ImportError is caught around the
whole probing block (line 273), so a non-ImportError exception from the
CUDA availability query escapes get_available_devices and prevents the
MPS and DirectML backends - both present in this environment - from
being enumerated. -/
theorem claimC6_counterexample :
    getAvailableDevices envCudaRaise = .error PyExc.runtimeError
    ∧ (∃ t, envCudaRaise.torch = some t ∧
        mpsDevices t = [⟨"mps", "Apple MPS", "mps"⟩] ∧
        dmlDevices t = [⟨"directml", "DirectML GPU 0", "directml"⟩]) :=
  ⟨rfl, ⟨tCudaRaise, rfl, rfl, rfl⟩⟩

/-- Claim C6 amended: a torch ImportError and failures of the MPS and
DirectML probes are isolated - enumeration still returns normally, with
the failed backend treated as absent and all other backends still
enumerated - but a non-ImportError exception from the CUDA availability
query propagates out of the enumeration (and suppresses the remaining
backends). -/
theorem claimC6_probe_isolation :
    ∀ (env : Env) (t : TorchEnv) (ca : Bool),
      (env.torch = none → getAvailableDevices env = .ok (baseDevices, []))
      ∧ (env.torch = some t → t.cudaAvailable = some ca →
          ∃ devs skips, getAvailableDevices env = .ok (devs, skips))
      ∧ (env.torch = some t → t.cudaAvailable = some ca → t.mpsAvailable = none →
          getAvailableDevices env =
            .ok (baseDevices ++ (if ca then cudaDevices t else ([], [])).1 ++ dmlDevices t,
                 (if ca then cudaDevices t else ([], [])).2))
      ∧ (env.torch = some t → t.cudaAvailable = some ca → t.dmlCount = none →
          getAvailableDevices env =
            .ok (baseDevices ++ (if ca then cudaDevices t else ([], [])).1 ++ mpsDevices t,
                 (if ca then cudaDevices t else ([], [])).2)) := by
  intro env t ca
  refine ⟨?_, ?_, ?_, ?_⟩
  · intro h
    cases env with
    | mk tor => simp only at h; subst h; rfl
  · intro h hca
    cases env with
    | mk tor =>
      simp only at h
      subst h
      refine ⟨baseDevices ++ (if ca then cudaDevices t else ([], [])).1
        ++ mpsDevices t ++ dmlDevices t, (if ca then cudaDevices t else ([], [])).2, ?_⟩
      simp only [getAvailableDevices, hca]
  · intro h hca hmps
    cases env with
    | mk tor =>
      simp only at h
      subst h
      simp [getAvailableDevices, hca, mpsDevices, hmps]
  · intro h hca hdml
    cases env with
    | mk tor =>
      simp only at h
      subst h
      simp [getAvailableDevices, hca, dmlDevices, hdml]

/-- Witness for the amended claim C6: torch absent yields just the base
devices, and a healthy CUDA probe enumerates normally. -/
theorem claimC6_probe_isolation_witness :
    getAvailableDevices ⟨none⟩ = .ok (baseDevices, [])
    ∧ (∃ devs skips, getAvailableDevices envDml = .ok (devs, skips)) := by
  constructor
  · exact (claimC6_probe_isolation ⟨none⟩ tBlank false).1 rfl
  · exact (claimC6_probe_isolation envDml tDml true).2.1 rfl rfl

/-- Claim C3 as stated is false in its part (c): a failing separation
call exits with status 1 (line 813), which is exactly the status used
both for a missing input file (line 797) and for a missing dependency
(the ImportError from line 340 lands in the same handler). -/
theorem claimC3_counterexample :
    (mainRun true true true (.error PyExc.runtimeError)).exitCode =
      (mainRun false true true (.ok [])).exitCode
    ∧ (mainRun true true true (.error PyExc.runtimeError)).exitCode =
      (mainRun true true false (.ok [])).exitCode := ⟨rfl, rfl⟩

/-- Claim C3 amended: if the blocking separation call raises, the run
still signals the processing estimator and joins it with the bounded
1-second timeout, writes an ERROR marker when a sink directory is
configured, and exits with the non-zero status 1 - which is the same
status, not a distinct one, as the input-not-found and
missing-dependency exits. -/
theorem claimC3_failure_path :
    ∀ (sink : Bool) (e : PyExc),
      (mainRun true sink true (.error e)).procStopSignalled = true
      ∧ (mainRun true sink true (.error e)).procJoinTimeoutSec = some 1
      ∧ (sink = true → (mainRun true sink true (.error e)).doneMarker = some "ERROR")
      ∧ (mainRun true sink true (.error e)).exitCode = 1
      ∧ (mainRun true sink true (.error e)).exitCode ≠ 0
      ∧ (mainRun true sink true (.error e)).exitCode = (mainRun false sink true (.ok [])).exitCode
      ∧ (mainRun true sink true (.error e)).exitCode = (mainRun true sink false (.ok [])).exitCode := by
  intro sink e
  cases sink <;> simp [mainRun]

/-- Witness for the amended claim C3 with a configured sink directory. -/
theorem claimC3_failure_path_witness :
    (mainRun true true true (.error PyExc.runtimeError)).doneMarker = some "ERROR"
    ∧ (mainRun true true true (.error PyExc.runtimeError)).procStopSignalled = true :=
  ⟨(claimC3_failure_path true PyExc.runtimeError).2.2.1 rfl,
   (claimC3_failure_path true PyExc.runtimeError).1⟩

/-- Claim C9 as stated is false in its consequence: the visibility
variables masked at lines 762-764 govern only the CUDA/ROCm backend, so
on a host with a DirectML device the post-mask catalog still reports a
non-CPU device. -/
theorem claimC9_counterexample :
    getAvailableDevices (applyCpuMask envDml) =
      .ok ([⟨"auto", "Auto", "auto"⟩, ⟨"cpu", "CPU", "cpu"⟩,
            ⟨"directml", "DirectML GPU 0", "directml"⟩], [])
    ∧ (⟨"directml", "DirectML GPU 0", "directml"⟩ : Device).ty ≠ "cpu"
    ∧ (⟨"directml", "DirectML GPU 0", "directml"⟩ : Device).ty ≠ "auto" := by
  refine ⟨rfl, by decide, by decide⟩

/-- Claim C9 amended: an explicit cpu request (compared
case-insensitively) sets the GPU-visibility variables to the empty
string strictly before any backend library is imported and before the
device catalog is first queried on the separation path, so subsequent
enumeration reports no CUDA/ROCm devices; MPS and DirectML devices are
not governed by those variables and may still appear. -/
theorem claimC9_cpu_mask :
    ∀ (device : String) (env : Env) (devs : List Device) (skips : List SkippedDevice),
      lowerStr device = "cpu" →
      ((separationTrace device).indexOf MainAct.maskGpu <
         (separationTrace device).indexOf MainAct.importBackend
       ∧ (separationTrace device).indexOf MainAct.maskGpu <
         (separationTrace device).indexOf MainAct.queryCatalog)
      ∧ (getAvailableDevices (applyCpuMask env) = .ok (devs, skips) →
          ∀ d ∈ devs, d.ty ≠ "cuda") := by
  intro device env devs skips hdev
  constructor
  · rw [separationTrace, if_pos hdev]
    exact ⟨by decide, by decide⟩
  · intro henum d hd
    cases env with
    | mk tor =>
      cases tor with
      | none =>
        rw [show applyCpuMask ⟨(none : Option TorchEnv)⟩ = ⟨none⟩ from rfl] at henum
        simp only [getAvailableDevices, Except.ok.injEq, Prod.mk.injEq] at henum
        rw [← henum.1] at hd
        simp only [baseDevices, List.mem_cons, List.not_mem_nil, or_false] at hd
        rcases hd with h | h
        · rw [h]; decide
        · rw [h]; decide
      | some t =>
        rw [show applyCpuMask ⟨some t⟩ =
            ⟨some { t with cudaAvailable := some false, cudaCount := 0 }⟩ from rfl] at henum
        have hexp : getAvailableDevices ⟨some { t with cudaAvailable := some false, cudaCount := 0 }⟩ =
            .ok (baseDevices ++ mpsDevices { t with cudaAvailable := some false, cudaCount := 0 }
              ++ dmlDevices { t with cudaAvailable := some false, cudaCount := 0 }, []) := by
          simp [getAvailableDevices]
        rw [hexp] at henum
        simp only [Except.ok.injEq, Prod.mk.injEq] at henum
        rw [← henum.1] at hd
        simp only [List.mem_append] at hd
        rcases hd with (h | h) | h
        · simp only [baseDevices, List.mem_cons, List.not_mem_nil, or_false] at h
          rcases h with h | h
          · rw [h]; decide
          · rw [h]; decide
        · simp only [mpsDevices] at h
          split at h
          · simp only [List.mem_cons, List.not_mem_nil, or_false] at h
            rw [h]; decide
          · exact absurd h (List.not_mem_nil d)
        · simp only [dmlDevices] at h
          split at h
          · exact absurd h (List.not_mem_nil d)
          next n =>
            simp only [List.mem_map] at h
            obtain ⟨i, _, hi⟩ := h
            rw [← hi]
            simp

/-- Witness for the amended claim C9: the uppercase request "CPU" masks,
and enumeration after masking on a DirectML host reports no CUDA
device. -/
theorem claimC9_cpu_mask_witness :
    ((separationTrace "CPU").indexOf MainAct.maskGpu <
       (separationTrace "CPU").indexOf MainAct.queryCatalog)
    ∧ ∀ d ∈ [(⟨"auto", "Auto", "auto"⟩ : Device), ⟨"cpu", "CPU", "cpu"⟩,
             ⟨"directml", "DirectML GPU 0", "directml"⟩], d.ty ≠ "cuda" := by
  have h := claimC9_cpu_mask "CPU" envDml
    [⟨"auto", "Auto", "auto"⟩, ⟨"cpu", "CPU", "cpu"⟩,
     ⟨"directml", "DirectML GPU 0", "directml"⟩] [] (by decide)
  exact ⟨h.1.2, h.2 rfl⟩

/-- A raw output file matching no stem synonym leaves the normalizer
state untouched. -/
theorem processFileStems_nomatch (dir filename full : String) (st : NormSt)
    (M : List (String × List String))
    (h : ∀ p ∈ M, patternHits p.2 filename = false) :
    processFileStems dir filename full M st = .ok st := by
  induction M with
  | nil => rfl
  | cons p M ih =>
    obtain ⟨stem, pats⟩ := p
    have hp : patternHits pats filename = false := h (stem, pats) (List.mem_cons_self _ _)
    simp only [processFileStems, hp, Bool.false_eq_true, if_false]
    exact ih (fun q hq => h q (List.mem_cons_of_mem _ hq))

/-- A raw output file that matches exactly one stem of the synonym table
segment M1 ++ (stem, pats) :: M2 is moved onto the canonical .wav name,
overwriting, and recorded in the result mapping. -/
theorem processFileStems_single_hit (dir filename full : String) (stem : String)
    (pats : List String) (M1 M2 : List (String × List String)) (st : NormSt)
    (h1 : ∀ p ∈ M1, patternHits p.2 filename = false)
    (h2 : ∀ p ∈ M2, patternHits p.2 filename = false)
    (hhit : patternHits pats filename = true)
    (hmem : full ∈ st.fs.erase (joinPath dir (stem ++ ".wav")))
    (hne : ¬ full = joinPath dir (stem ++ ".wav")) :
    processFileStems dir filename full (M1 ++ (stem, pats) :: M2) st =
      .ok ⟨(st.fs.erase (joinPath dir (stem ++ ".wav"))).erase full
             ++ [joinPath dir (stem ++ ".wav")],
           upsert st.result stem (joinPath dir (stem ++ ".wav"))⟩ := by
  induction M1 with
  | nil =>
    simp only [List.nil_append, processFileStems, hhit, if_true, if_neg hne, if_pos hmem]
    exact processFileStems_nomatch dir filename full _ M2 h2
  | cons p M1 ih =>
    obtain ⟨s0, ps0⟩ := p
    have hp : patternHits ps0 filename = false := h1 (s0, ps0) (List.mem_cons_self _ _)
    simp only [List.cons_append, processFileStems, hp, Bool.false_eq_true, if_false]
    exact ih (fun q hq => h1 q (List.mem_cons_of_mem _ hq))

/-- Claim C5 as stated is false on two counts.  First, the canonical
target name is always <stem>.wav (line 606), not the raw file's own
extension: a raw "song_(Vocals).flac" ends up at vocals.wav.  Second,
first-match-wins fails, because the break at line 614 leaves only the
inner synonym loop: "song_(no_vocals).wav" matches vocals first and is
moved, then also matches other's synonym no_vocals, and the second move
finds its source gone and raises FileNotFoundError. -/
theorem claimC5_counterexample :
    normalizeOutputs "out" ["song_(Vocals).flac"] ["out/song_(Vocals).flac"] =
      .ok ⟨["out/vocals.wav"], [("vocals", "out/vocals.wav")]⟩
    ∧ "out/vocals.wav" ≠ "out/vocals.flac"
    ∧ normalizeOutputs "out" ["song_(no_vocals).wav"] ["out/song_(no_vocals).wav"] =
        .error () := by
  refine ⟨rfl, by decide, rfl⟩

/-- Claim C5 amended: filenames are matched case-insensitively (by
substring) against the ordered synonym table; a file matching no synonym
is silently omitted; a file matching exactly one stem name is moved to
output_dir/<stem>.wav - the extension is always .wav regardless of the
original - overwriting any pre-existing file of that name (every
matching stem in iteration order processes the file, so a multi-match
filename raises after the first move, per the counterexample); the
spec's scenario yields {vocals, other}. -/
theorem claimC5_normalizer :
    ∀ (dir raw : String) (fs0 : List String) (stem : String) (pats : List String)
      (M1 M2 : List (String × List String)),
      ((∀ p ∈ stem_mapping, patternHits p.2 (rawFileKey dir raw) = false) →
        normalizeOutputs dir [raw] fs0 = .ok ⟨fs0, []⟩)
      ∧ (stem_mapping = M1 ++ (stem, pats) :: M2 →
         (∀ p ∈ M1, patternHits p.2 (rawFileKey dir raw) = false) →
         (∀ p ∈ M2, patternHits p.2 (rawFileKey dir raw) = false) →
         patternHits pats (rawFileKey dir raw) = true →
         fullRawPath dir raw ∈ fs0.erase (joinPath dir (stem ++ ".wav")) →
         ¬ fullRawPath dir raw = joinPath dir (stem ++ ".wav") →
         normalizeOutputs dir [raw] fs0 =
           .ok ⟨(fs0.erase (joinPath dir (stem ++ ".wav"))).erase (fullRawPath dir raw)
                  ++ [joinPath dir (stem ++ ".wav")],
                [(stem, joinPath dir (stem ++ ".wav"))]⟩)
      ∧ normalizeOutputs "out" ["song_(Vocals).wav", "song_(Instrumental).wav"]
           ["out/song_(Vocals).wav", "out/song_(Instrumental).wav"] =
         .ok ⟨["out/vocals.wav", "out/other.wav"],
              [("vocals", "out/vocals.wav"), ("other", "out/other.wav")]⟩ := by
  intro dir raw fs0 stem pats M1 M2
  refine ⟨?_, ?_, rfl⟩
  · intro h
    have hstep : processRawFile dir ⟨fs0, []⟩ raw = .ok ⟨fs0, []⟩ :=
      processFileStems_nomatch dir (rawFileKey dir raw) (fullRawPath dir raw) ⟨fs0, []⟩
        stem_mapping h
    simp [normalizeOutputs, List.foldlM, hstep]
  · intro hsplit h1 h2 hhit hmem hne
    have hstep : processRawFile dir ⟨fs0, []⟩ raw =
        .ok ⟨(fs0.erase (joinPath dir (stem ++ ".wav"))).erase (fullRawPath dir raw)
               ++ [joinPath dir (stem ++ ".wav")],
             [(stem, joinPath dir (stem ++ ".wav"))]⟩ := by
      rw [processRawFile, hsplit]
      exact processFileStems_single_hit dir (rawFileKey dir raw) (fullRawPath dir raw)
        stem pats M1 M2 ⟨fs0, []⟩ h1 h2 hhit hmem hne
    simp [normalizeOutputs, List.foldlM, hstep]

/-- Witness for the amended claim C5: "song_(Vocals).wav" matches only
the vocals stem and is moved to out/vocals.wav, and "mixture.wav"
matches nothing and is silently dropped. -/
theorem claimC5_normalizer_witness :
    normalizeOutputs "out" ["mixture.wav"] ["out/mixture.wav"] =
      .ok ⟨["out/mixture.wav"], []⟩
    ∧ normalizeOutputs "out" ["song_(Vocals).wav"] ["out/song_(Vocals).wav"] =
      .ok ⟨["out/vocals.wav"], [("vocals", "out/vocals.wav")]⟩ := by
  constructor
  · exact (claimC5_normalizer "out" "mixture.wav" ["out/mixture.wav"]
      "" [] [] []).1 (by decide)
  · have h := (claimC5_normalizer "out" "song_(Vocals).wav" ["out/song_(Vocals).wav"]
      "vocals" ["vocals", "vocal", "Vocals"] []
      [("drums", ["drums", "drum", "Drums"]),
       ("bass", ["bass", "Bass"]),
       ("other", ["other", "Other", "no_vocals", "instrumental", "Instrumental"]),
       ("guitar", ["guitar", "Guitar"]),
       ("piano", ["piano", "Piano", "keys", "Keys"])]).2.1
      rfl (by simp) (by decide) (by decide) (by decide) (by decide)
    simpa using h

/-- The loading-phase percent is monotone in the progress ratio. -/
theorem loadingPercent_mono {r s : ℚ} (h : r ≤ s) : loadingPercent r ≤ loadingPercent s := by
  unfold loadingPercent
  exact min_le_min le_rfl (Int.floor_le_floor (by linarith))

/-- The loading-phase percent is at least 1 for a nonnegative ratio. -/
theorem loadingPercent_ge_one {r : ℚ} (h : 0 ≤ r) : 1 ≤ loadingPercent r := by
  unfold loadingPercent
  refine le_min (by norm_num) (Int.le_floor.mpr ?_)
  push_cast
  nlinarith

/-- The clamped processing scan never decreases. -/
theorem procScan_chain : ∀ (rs : List ℚ) (last : ℤ), last ≤ 88 →
    List.Chain' (· ≤ ·) (last :: procScan last rs) := by
  intro rs
  induction rs with
  | nil => intro last _; simp [procScan]
  | cons r rs ih =>
    intro last hlast
    rw [procScan, List.chain'_cons]
    constructor
    · exact le_min hlast (le_max_left _ _)
    · exact ih (processingPercent last r) (min_le_left _ _)

/-- Every percent the processing scan emits is positive (given a
positive starting clamp within range). -/
theorem procScan_pos : ∀ (rs : List ℚ) (last : ℤ), 0 < last → last ≤ 88 →
    ∀ p ∈ procScan last rs, 0 < p := by
  intro rs
  induction rs with
  | nil => intro last _ _ p hp; simp [procScan] at hp
  | cons r rs ih =>
    intro last hpos hle p hp
    rw [procScan, List.mem_cons] at hp
    rcases hp with rfl | hp
    · exact lt_min (by norm_num) (lt_of_lt_of_le hpos (le_max_left _ _))
    · exact ih (processingPercent last r)
        (lt_min (by norm_num) (lt_of_lt_of_le hpos (le_max_left _ _)))
        (min_le_left _ _) p hp

/-- Every element of an interleaving comes from one of the two sides. -/
theorem interleave_mem {xs ys zs : List ProgressEvent} (h : Interleave xs ys zs) :
    ∀ z ∈ zs, z ∈ xs ∨ z ∈ ys := by
  induction h with
  | nil => intro z hz; simp at hz
  | left _ ih =>
    intro z hz
    rw [List.mem_cons] at hz
    rcases hz with rfl | hz
    · exact Or.inl (List.mem_cons_self _ _)
    · rcases ih z hz with h' | h'
      · exact Or.inl (List.mem_cons_of_mem _ h')
      · exact Or.inr h'
  | right _ ih =>
    intro z hz
    rw [List.mem_cons] at hz
    rcases hz with rfl | hz
    · exact Or.inr (List.mem_cons_self _ _)
    · rcases ih z hz with h' | h'
      · exact Or.inl h'
      · exact Or.inr (List.mem_cons_of_mem _ h')

/-- Filtering an interleaving by a predicate that rejects every element
of the right-hand stream leaves exactly the filtered left-hand stream. -/
theorem interleave_filter_right_none {xs ys zs : List ProgressEvent}
    (q : ProgressEvent → Bool) (h : Interleave xs ys zs)
    (hys : ∀ y ∈ ys, q y = false) : zs.filter q = xs.filter q := by
  induction h with
  | nil => rfl
  | @left x xs' ys' zs' _ ih =>
    have hys' : ∀ y ∈ ys', q y = false := hys
    simp only [List.filter_cons]
    rw [ih hys']
  | @right y xs' ys' zs' _ ih =>
    have hy : q y = false := hys y (List.mem_cons_self _ _)
    simp only [List.filter_cons, hy]
    exact ih (fun y' hy' => hys y' (List.mem_cons_of_mem _ hy'))

/-- Filtering an interleaving by a predicate that rejects every element
of the left-hand stream leaves exactly the filtered right-hand stream. -/
theorem interleave_filter_left_none {xs ys zs : List ProgressEvent}
    (q : ProgressEvent → Bool) (h : Interleave xs ys zs)
    (hxs : ∀ x ∈ xs, q x = false) : zs.filter q = ys.filter q := by
  induction h with
  | nil => rfl
  | @left x xs' ys' zs' _ ih =>
    have hx : q x = false := hxs x (List.mem_cons_self _ _)
    simp only [List.filter_cons, hx]
    exact ih (fun x' hx' => hxs x' (List.mem_cons_of_mem _ hx'))
  | @right y xs' ys' zs' _ ih =>
    have hxs' : ∀ x ∈ xs', q x = false := hxs
    simp only [List.filter_cons]
    rw [ih hxs']

/-- A tagged stream survives the filter for its own emitter. -/
theorem tagged_filter_self (e : Emitter) (ps : List ℤ) :
    (tagged e ps).filter (fun ev => ev.1 == e) = tagged e ps := by
  simp [tagged, List.filter_map, Function.comp_def]

/-- A tagged stream is wiped out by the filter for a different emitter. -/
theorem tagged_filter_other {e e' : Emitter} (h : e' ≠ e) (ps : List ℤ) :
    (tagged e ps).filter (fun ev => ev.1 == e') = [] := by
  have he : ((e == e') : Bool) = false := by
    simp only [beq_eq_false_iff_ne, ne_eq]
    exact fun hc => h hc.symm
  simp [tagged, List.filter_map, Function.comp_def, he]

/-- Percent values of a tagged stream. -/
theorem tagged_map_snd (e : Emitter) (ps : List ℤ) :
    (tagged e ps).map Prod.snd = ps := by
  simp [tagged, List.map_map, Function.comp_def]

/-- Claim C1 as stated is false: there is an interleaving of the
foreground emits with the loading estimator thread's emits - realizable
when engine initialization between the foreground's emit of 1 (line 413)
and its emit of 3 (line 505) takes about one 15-second half-life - in
which the loading thread emits 5 and the foreground then emits 3, so the
percent sequence reaching each sink is not non-decreasing. -/
theorem claimC1_counterexample :
    ValidTrace ceTrace ∧ ¬ List.Chain' (· ≤ ·) (ceTrace.map Prod.snd) := by
  have hl0 : loadingPercent 0 = 1 := by
    have hf : (⌊(1 : ℚ) + 0 * 9⌋ : ℤ) = 1 := by norm_num
    rw [loadingPercent, hf]
    omega
  have hl12 : loadingPercent (1 / 2) = 5 := by
    have hf : (⌊(1 : ℚ) + 1 / 2 * 9⌋ : ℤ) = 5 := by
      rw [Int.floor_eq_iff]; norm_num
    rw [loadingPercent, hf]
    omega
  have hp0 : processingPercent 11 0 = 12 := by
    have hf : (⌊(12 : ℚ) + 0 * 76⌋ : ℤ) = 12 := by norm_num
    rw [processingPercent, hf]
    omega
  constructor
  · refine ⟨[1, 5], [12],
      [(Emitter.foreground, 1), (Emitter.loadThread, 1),
       (Emitter.loadThread, 5), (Emitter.foreground, 3)],
      ⟨[0, 1 / 2], ?_, ?_, ?_⟩, ⟨[0], ?_, ?_, ?_⟩, ?_, rfl⟩
    · norm_num [List.chain'_cons, List.chain'_singleton]
    · intro r hr
      rcases List.mem_cons.mp hr with rfl | hr
      · norm_num
      · rcases List.mem_cons.mp hr with rfl | hr
        · norm_num
        · exact absurd hr (List.not_mem_nil r)
    · simp only [List.map_cons, List.map_nil, hl0, hl12]
    · exact List.chain'_singleton 0
    · intro r hr
      rcases List.mem_cons.mp hr with rfl | hr
      · norm_num
      · exact absurd hr (List.not_mem_nil r)
    · simp [procScan, hp0]
    · exact Interleave.left (Interleave.right (Interleave.right
        (Interleave.left Interleave.nil)))
  · intro h
    simp only [ceTrace, List.map_cons, List.map_nil, List.chain'_cons,
      List.chain'_singleton] at h
    omega

/-- Claim C1 amended: in every interleaving, percent 0 is emitted
exactly once and first, and the subsequence of percents emitted by each
single thread (foreground, loading estimator, processing estimator) is
non-decreasing; but the merged sequence need not be (see the
counterexample, where a foreground constant lands after a larger
loading-thread percent). -/
theorem claimC1_per_thread_monotone :
    ∀ tr, ValidTrace tr →
      tr.head? = some (Emitter.foreground, 0)
      ∧ (∀ ev ∈ tr.tail, 0 < ev.2)
      ∧ List.Chain' (· ≤ ·)
          ((tr.filter (fun ev => ev.1 == Emitter.foreground)).map Prod.snd)
      ∧ List.Chain' (· ≤ ·)
          ((tr.filter (fun ev => ev.1 == Emitter.loadThread)).map Prod.snd)
      ∧ List.Chain' (· ≤ ·)
          ((tr.filter (fun ev => ev.1 == Emitter.procThread)).map Prod.snd) := by
  rintro tr ⟨L, P, w, ⟨rs, hrsc, hrsb, hL⟩, ⟨qs, _hqsc, _hqsb, hP⟩, hint, rfl⟩
  have hLpos : ∀ p ∈ L, (1 : ℤ) ≤ p := by
    rw [hL]
    intro p hp
    obtain ⟨r, hr, rfl⟩ := List.mem_map.mp hp
    exact loadingPercent_ge_one (hrsb r hr).1
  have hPpos : ∀ p ∈ P, (0 : ℤ) < p := by
    rw [hP]
    exact procScan_pos qs 11 (by norm_num) (by norm_num)
  have hload_false : ∀ y ∈ tagged Emitter.loadThread L,
      (fun ev : ProgressEvent => ev.1 == Emitter.foreground) y = false := by
    intro y hy
    obtain ⟨p, _, rfl⟩ := List.mem_map.mp hy
    rfl
  have hfg_false : ∀ x ∈ fgLoadEvents,
      (fun ev : ProgressEvent => ev.1 == Emitter.loadThread) x = false := by
    intro x hx
    rcases List.mem_cons.mp hx with rfl | hx
    · rfl
    · rcases List.mem_cons.mp hx with rfl | hx
      · rfl
      · exact absurd hx (List.not_mem_nil x)
  have hfg_false2 : ∀ x ∈ fgLoadEvents,
      (fun ev : ProgressEvent => ev.1 == Emitter.procThread) x = false := by
    intro x hx
    rcases List.mem_cons.mp hx with rfl | hx
    · rfl
    · rcases List.mem_cons.mp hx with rfl | hx
      · rfl
      · exact absurd hx (List.not_mem_nil x)
  have hload_false2 : ∀ y ∈ tagged Emitter.loadThread L,
      (fun ev : ProgressEvent => ev.1 == Emitter.procThread) y = false := by
    intro y hy
    obtain ⟨p, _, rfl⟩ := List.mem_map.mp hy
    rfl
  refine ⟨rfl, ?_, ?_, ?_, ?_⟩
  · -- every event after the initial 0 has positive percent
    intro ev hev
    have hev0 : ev ∈ w ++ (Emitter.foreground, 11) ::
        (tagged Emitter.procThread P ++ [(Emitter.foreground, 92), (Emitter.foreground, 100)]) := hev
    rcases List.mem_append.mp hev0 with hw | hev2
    · rcases interleave_mem hint ev hw with hfg | hld
      · rcases List.mem_cons.mp hfg with rfl | hfg
        · norm_num
        · rcases List.mem_cons.mp hfg with rfl | hfg
          · norm_num
          · exact absurd hfg (List.not_mem_nil ev)
      · obtain ⟨p, hp, rfl⟩ := List.mem_map.mp hld
        exact lt_of_lt_of_le (by norm_num) (hLpos p hp)
    · rcases List.mem_cons.mp hev2 with rfl | hev3
      · norm_num
      · rcases List.mem_append.mp hev3 with hpr | hrest
        · obtain ⟨p, hp, rfl⟩ := List.mem_map.mp hpr
          exact hPpos p hp
        · rcases List.mem_cons.mp hrest with rfl | hrest
          · norm_num
          · rcases List.mem_cons.mp hrest with rfl | hrest
            · norm_num
            · exact absurd hrest (List.not_mem_nil ev)
  · -- foreground subsequence
    have hw : w.filter (fun ev => ev.1 == Emitter.foreground) = fgLoadEvents :=
      (interleave_filter_right_none _ hint hload_false).trans rfl
    have hfl : ((Emitter.foreground, 0) :: w ++ (Emitter.foreground, 11) ::
        (tagged Emitter.procThread P ++ [(Emitter.foreground, 92), (Emitter.foreground, 100)])).filter
          (fun ev => ev.1 == Emitter.foreground) =
        [(Emitter.foreground, 0), (Emitter.foreground, 1), (Emitter.foreground, 3),
         (Emitter.foreground, 11), (Emitter.foreground, 92), (Emitter.foreground, 100)] := by
      simp [List.filter_append, hw,
        tagged_filter_other (show Emitter.procThread ≠ Emitter.foreground from by
          intro hc; cases hc).symm, fgLoadEvents]
    rw [hfl]
    norm_num [List.chain'_cons, List.chain'_singleton]
  · -- loading-thread subsequence
    have hw : w.filter (fun ev => ev.1 == Emitter.loadThread) = tagged Emitter.loadThread L :=
      (interleave_filter_left_none _ hint hfg_false).trans (tagged_filter_self _ _)
    have hfl : ((Emitter.foreground, 0) :: w ++ (Emitter.foreground, 11) ::
        (tagged Emitter.procThread P ++ [(Emitter.foreground, 92), (Emitter.foreground, 100)])).filter
          (fun ev => ev.1 == Emitter.loadThread) = tagged Emitter.loadThread L := by
      simp [List.filter_append, hw,
        tagged_filter_other (show Emitter.loadThread ≠ Emitter.procThread from by
          intro hc; cases hc) P]
    rw [hfl, tagged_map_snd]
    rw [hL]
    exact List.chain'_map_of_chain' _ (fun a b hab => loadingPercent_mono hab) hrsc
  · -- processing-thread subsequence
    have hw : w.filter (fun ev => ev.1 == Emitter.procThread) = ([] : List ProgressEvent) := by
      rw [interleave_filter_left_none _ hint hfg_false2]
      exact tagged_filter_other (show Emitter.procThread ≠ Emitter.loadThread from by
        intro hc; cases hc) L
    have hfl : ((Emitter.foreground, 0) :: w ++ (Emitter.foreground, 11) ::
        (tagged Emitter.procThread P ++ [(Emitter.foreground, 92), (Emitter.foreground, 100)])).filter
          (fun ev => ev.1 == Emitter.procThread) = tagged Emitter.procThread P := by
      simp [List.filter_append, hw, tagged_filter_self Emitter.procThread]
    rw [hfl, tagged_map_snd]
    rw [hP]
    exact (procScan_chain qs 11 (by norm_num)).tail

/-- Witness for the amended claim C1 on the trouble-free interleaving in
which the estimator threads never emit. -/
theorem claimC1_per_thread_monotone_witness :
    fgOnlyTrace.head? = some (Emitter.foreground, 0)
    ∧ List.Chain' (· ≤ ·)
        ((fgOnlyTrace.filter (fun ev => ev.1 == Emitter.foreground)).map Prod.snd) := by
  have hv : ValidTrace fgOnlyTrace :=
    ⟨[], [], [(Emitter.foreground, 1), (Emitter.foreground, 3)],
      ⟨[], List.chain'_nil, by simp, rfl⟩, ⟨[], List.chain'_nil, by simp, rfl⟩,
      Interleave.left (Interleave.left Interleave.nil), rfl⟩
  have h := claimC1_per_thread_monotone fgOnlyTrace hv
  exact ⟨h.1, h.2.2.1⟩

end STEMwerk
